import Mathlib

/-!
Shallow embedding of `hystrix_client.go` from sohamkamani/heimdall.

The file models the hystrix-backed HTTP client: the verb constructors
(`Get`/`Post`/`Put`/`Patch`/`Delete`), the retry loop `do` (embedded here as
`doCall`/`doLoop`, since `do` is a Lean keyword), and the unit of work passed
to `hystrix.Do` together with its fallback.

External collaborators (the HTTP transport `http.Client.Do`, body reading via
`ioutil.ReadAll`, and the hystrix circuit breaker's admission decision) are
modelled as an environment oracle: for each attempt index the oracle says
whether the breaker admitted the call and, if so, what the transport returned.
Everything the source code itself does with those answers is embedded
faithfully, statement by statement.
-/

namespace Heimdall

/-- Modelled from the spec: `Response` (defined outside `hystrix_client.go`)
is the result of one HTTP round trip — status code and body bytes (§3, §6);
`hystrix_client.go` writes its fields `statusCode` and `body` directly.
`Response{}` is the Go zero value: status 0, nil body. -/
structure Response where
  statusCode : Int
  body : List Nat
deriving DecidableEq

/-- The Go zero value `Response{}`. -/
def Response.empty : Response := { statusCode := 0, body := [] }

/-- The part of `http.Request` the source manipulates: `request.Close`.
Method and URL are carried along for fidelity of the verb constructors. -/
structure Request where
  method : String
  url : String
  Close : Bool
deriving DecidableEq

/-- Go `error` values that can flow through `do`: transport errors from
`client.Do`, hystrix admission rejections, `ioutil.ReadAll` failures, the
`fmt.Errorf("Server is down: ...")` error for 5xx, and `errors.Wrap`ped
request-creation errors. -/
inductive GoError where
  | transport
  | circuitOpen
  | maxConcurrency
  | readFailed
  | serverDown (status : Int)
  | urlInvalid
  | wrapped (msg : String) (inner : GoError)
deriving DecidableEq

/-- Outcome of `ioutil.ReadAll(response.Body)`: success with the bytes, or a
read error together with the bytes assigned to `hr.body` by the
multiple-assignment `hr.body, err = ioutil.ReadAll(...)`. -/
inductive ReadOutcome where
  | readOk (bytes : List Nat)
  | readErr (got : List Nat)
deriving DecidableEq

/-- What `hhc.client.Do(request)` produced on one attempt: a transport error,
or a response with a status code and a possibly-nil `Body` (whose read outcome
the environment also fixes). -/
inductive CallOutcome where
  | transportErr
  | resp (status : Int) (body : Option ReadOutcome)
deriving DecidableEq

/-- The circuit breaker's decision for one attempt: reject admission with an
error (circuit open / max concurrency), or admit and run the unit of work,
whose transport sees `outcome`. -/
inductive Admission where
  | rejected (e : GoError)
  | admitted (outcome : CallOutcome)
deriving DecidableEq

/-- Whether the breaker admitted the attempt (so `hhc.client.Do` was invoked). -/
def Admission.isAdmitted : Admission → Bool
  | .admitted _ => true
  | .rejected _ => false

/-- Result of one run of the unit of work (the closure at lines 121–142):
it returns `nil` or an error, after mutating the shared accumulator `hr`;
or it panics on `response.Body.Close()` when `Body` is nil. -/
inductive UnitResult where
  | ok (hr : Response)
  | fail (e : GoError) (hr : Response)
  | panicNilBody (hr : Response)
deriving DecidableEq

def UnitResult.isFail : UnitResult → Bool
  | .fail _ _ => true
  | _ => false

def UnitResult.isPanic : UnitResult → Bool
  | .panicNilBody _ => true
  | _ => false

/-- The closure passed to `hystrix.Do` (lines 121–142), acting on the current
accumulator `hr`:

* `response, err := hhc.client.Do(request)`; on error, return it (`hr` untouched);
* `if response.Body != nil` read the body into `hr.body`, returning the read
  error if any (note `hr.body` receives the bytes read so far even then);
* `response.Body.Close()` — a nil `Body` makes this dereference panic,
  before `hr.statusCode` is assigned;
* `hr.statusCode = response.StatusCode`;
* status `>= 500` (`http.StatusInternalServerError`) returns the
  "Server is down" error; otherwise return nil. -/
def unitOfWork (hr : Response) : CallOutcome → UnitResult
  | .transportErr => .fail .transport hr
  | .resp status bodyOpt =>
    match bodyOpt with
    | none => .panicNilBody hr
    | some (.readErr got) => .fail .readFailed { hr with body := got }
    | some (.readOk bytes) =>
      if 500 ≤ status then
        .fail (.serverDown status) { statusCode := status, body := bytes }
      else
        .ok { statusCode := status, body := bytes }

/-- `hystrix.Do(name, work, fallback)` as used at lines 121–145: on admission
the unit of work runs; on rejection — and on any error from the unit of
work — the fallback `func(err error) error { return err }` hands the error
back unchanged, so `hystrix.Do` returns exactly the rejection error or the
unit of work's error. -/
def hystrixDo (hr : Response) : Admission → UnitResult
  | .rejected e => .fail e hr
  | .admitted outcome => unitOfWork hr outcome

/-- The fields of `hystrixHTTPClient` that the embedded code paths read:
the retry count (a Go `int`, so `Int` here) and the retrier's
`NextInterval` function returning a `time.Duration` (an `Int`). -/
structure HystrixHTTPClient where
  hystrixCommandName : String
  retryCount : Int
  retrier : Nat → Int

def defaultHystrixRetryCount : Int := 0

/-- Modelled from the spec: `NewNoRetrier` (defined outside
`hystrix_client.go`) yields a strategy whose `NextInterval` is always 0
("A no-retry strategy returns 0 always", §4.1). -/
def NewNoRetrier : Nat → Int := fun _ => 0

/-- `NewHystrixHTTPClient` (lines 28–41): default command name `"default"`,
retry count `defaultHystrixRetryCount = 0`, retrier `NewNoRetrier()`.
The timeout and hystrix command config only parameterize the external
collaborators, which the oracle models. -/
def NewHystrixHTTPClient (timeoutInSeconds : Int) : HystrixHTTPClient :=
  { hystrixCommandName := "default"
  , retryCount := defaultHystrixRetryCount
  , retrier := NewNoRetrier }

/-- `SetRetryCount` (lines 44–46). -/
def SetRetryCount (hhc : HystrixHTTPClient) (count : Int) : HystrixHTTPClient :=
  { hhc with retryCount := count }

/-- `SetRetrier` (lines 49–51). -/
def SetRetrier (hhc : HystrixHTTPClient) (retrier : Nat → Int) : HystrixHTTPClient :=
  { hhc with retrier := retrier }

/-- Observable trace of one completed `do` call: the returned `(Response,
error)` pair, plus the requests passed to `hhc.client.Do` (one per admitted
attempt, in order), the number of `hystrix.Do` invocations, and the durations
passed to `time.Sleep`, in order. -/
structure DoTrace where
  response : Response
  error : Option GoError
  httpCalls : List Request
  breakerCalls : Nat
  sleeps : List Int
deriving DecidableEq

/-- Result of a `do` call: a normal return with its trace, or a panic
(escaping from `response.Body.Close()` on a nil body) with the trace
accumulated up to that point. -/
inductive DoResult where
  | normal (t : DoTrace)
  | panicked (httpCalls : List Request) (breakerCalls : Nat) (sleeps : List Int)
deriving DecidableEq

def DoResult.errorOf : DoResult → Option (Option GoError)
  | .normal t => some t.error
  | .panicked _ _ _ => none

def DoResult.responseOf : DoResult → Option Response
  | .normal t => some t.response
  | .panicked _ _ _ => none

def DoResult.httpCallsList : DoResult → List Request
  | .normal t => t.httpCalls
  | .panicked calls _ _ => calls

def DoResult.breakerCallsOf : DoResult → Nat
  | .normal t => t.breakerCalls
  | .panicked _ b _ => b

def DoResult.sleepsOf : DoResult → List Int
  | .normal t => t.sleeps
  | .panicked _ _ s => s

def DoResult.isPanicked : DoResult → Bool
  | .normal _ => false
  | .panicked _ _ _ => true

/-- The loop `for i := 0; i <= hhc.retryCount; i++` of `do` (lines 118–154),
with `fuel` the number of iterations still permitted by the loop condition.
Each iteration invokes `hystrix.Do`; on a nil error it `break`s; on an error
it computes `hhc.retrier.NextInterval(i)`, sleeps for it, and `continue`s —
note the sleep happens on every failed iteration, the last one included,
because the loop condition is only re-checked afterwards. After the loop,
`return hr, nil`. -/
def doLoop (retrier : Nat → Int) (oracle : Nat → Admission) (request : Request) :
    Nat → Nat → Response → List Request → Nat → List Int → DoResult
  | _, 0, hr, calls, breaker, sleeps => .normal ⟨hr, none, calls, breaker, sleeps⟩
  | i, fuel + 1, hr, calls, breaker, sleeps =>
    match hystrixDo hr (oracle i) with
    | .panicNilBody _ =>
        .panicked (if (oracle i).isAdmitted then calls ++ [request] else calls)
          (breaker + 1) sleeps
    | .ok hr' =>
        .normal ⟨hr', none,
          if (oracle i).isAdmitted then calls ++ [request] else calls,
          breaker + 1, sleeps⟩
    | .fail _ hr' =>
        doLoop retrier oracle request (i + 1) fuel hr'
          (if (oracle i).isAdmitted then calls ++ [request] else calls)
          (breaker + 1) (sleeps ++ [retrier i])

/-- `do` (lines 113–157; named `doCall` because `do` is a Lean keyword):
start from `hr := Response{}`, set `request.Close = true` once before any
attempt, then run the loop. A non-negative `retryCount = N` admits `N + 1`
iterations; a negative one admits none, and `hr, nil` is returned at once. -/
def doCall (hhc : HystrixHTTPClient) (oracle : Nat → Admission) (request : Request) :
    DoResult :=
  doLoop hhc.retrier oracle { request with Close := true } 0
    (hhc.retryCount + 1).toNat Response.empty [] 0 []

/-- Outcome of `http.NewRequest`, an external collaborator: a request, or a
construction error. -/
inductive NewRequestResult where
  | ok (r : Request)
  | err (e : GoError)
deriving DecidableEq

/-- `Get` (lines 54–63): on request-construction failure, return the empty
`Response{}` and the wrapped error without ever calling `do`; otherwise
delegate to `do`. -/
def Get (hhc : HystrixHTTPClient) (newReq : NewRequestResult)
    (oracle : Nat → Admission) : DoResult :=
  match newReq with
  | .err e =>
      .normal { response := Response.empty
              , error := some (.wrapped "GET - request creation failed" e)
              , httpCalls := [], breakerCalls := 0, sleeps := [] }
  | .ok request => doCall hhc oracle request

/-- `Post` (lines 66–75); the request body is consumed by `http.NewRequest`,
whose outcome `newReq` already reflects it. -/
def Post (hhc : HystrixHTTPClient) (newReq : NewRequestResult)
    (oracle : Nat → Admission) : DoResult :=
  match newReq with
  | .err e =>
      .normal { response := Response.empty
              , error := some (.wrapped "POST - request creation failed" e)
              , httpCalls := [], breakerCalls := 0, sleeps := [] }
  | .ok request => doCall hhc oracle request

/-- `Put` (lines 78–87). -/
def Put (hhc : HystrixHTTPClient) (newReq : NewRequestResult)
    (oracle : Nat → Admission) : DoResult :=
  match newReq with
  | .err e =>
      .normal { response := Response.empty
              , error := some (.wrapped "PUT - request creation failed" e)
              , httpCalls := [], breakerCalls := 0, sleeps := [] }
  | .ok request => doCall hhc oracle request

/-- `Patch` (lines 90–99). -/
def Patch (hhc : HystrixHTTPClient) (newReq : NewRequestResult)
    (oracle : Nat → Admission) : DoResult :=
  match newReq with
  | .err e =>
      .normal { response := Response.empty
              , error := some (.wrapped "PATCH - request creation failed" e)
              , httpCalls := [], breakerCalls := 0, sleeps := [] }
  | .ok request => doCall hhc oracle request

/-- `Delete` (lines 102–111). -/
def Delete (hhc : HystrixHTTPClient) (newReq : NewRequestResult)
    (oracle : Nat → Admission) : DoResult :=
  match newReq with
  | .err e =>
      .normal { response := Response.empty
              , error := some (.wrapped "DELETE - request creation failed" e)
              , httpCalls := [], breakerCalls := 0, sleeps := [] }
  | .ok request => doCall hhc oracle request

/-- Classification: does this transport outcome make the unit of work return
a non-nil error (as opposed to returning nil, or panicking)? -/
def unitFails : CallOutcome → Bool
  | .transportErr => true
  | .resp _ none => false
  | .resp _ (some (.readErr _)) => true
  | .resp s (some (.readOk _)) => decide (500 ≤ s)

/-- Classification: does this attempt come back from `hystrix.Do` with a
non-nil error (rejection, or a failing unit of work)? -/
def admFails : Admission → Bool
  | .rejected _ => true
  | .admitted t => unitFails t

/-- The accumulator `hr` after one failing attempt with this admission. -/
def failUpdate (hr : Response) : Admission → Response
  | .rejected _ => hr
  | .admitted .transportErr => hr
  | .admitted (.resp _ none) => hr
  | .admitted (.resp _ (some (.readErr got))) => { hr with body := got }
  | .admitted (.resp s (some (.readOk bytes))) => { statusCode := s, body := bytes }

/-- An always-failing environment: the breaker admits every attempt and the
transport errors out each time. -/
def failingOracle : Nat → Admission := fun _ => .admitted .transportErr

/-- An environment where every attempt is admitted and comes back 503 with a
readable body: the unit of work fails on the `>= 500` check each time. -/
def oracle5xx : Nat → Admission := fun _ => .admitted (.resp 503 (some (.readOk [1, 2])))

/-- A concrete request, as `http.NewRequest(http.MethodGet, url, nil)` would
produce it (`Close` is false until `do` sets it). -/
def req0 : Request := { method := "GET", url := "http://localhost:8080/x", Close := false }

theorem hystrixDo_fail_of_admFails (adm : Admission) (hr : Response)
    (h : admFails adm = true) :
    ∃ e, hystrixDo hr adm = .fail e (failUpdate hr adm) := by
  cases adm with
  | rejected e => exact ⟨e, rfl⟩
  | admitted t =>
    cases t with
    | transportErr => exact ⟨.transport, rfl⟩
    | resp s bodyOpt =>
      match bodyOpt with
      | none => simp [admFails, unitFails] at h
      | some (.readErr got) => exact ⟨.readFailed, rfl⟩
      | some (.readOk bytes) =>
        have hs : 500 ≤ s := by simpa [admFails, unitFails] using h
        exact ⟨.serverDown s, by simp [hystrixDo, unitOfWork, failUpdate, if_pos hs]⟩

/-- When every attempt in range fails (non-nil error, no panic), the loop runs
all its iterations: the accumulator folds `failUpdate` over the admissions, the
returned error is nil, each admitted attempt contributes one HTTP call, every
iteration invokes the breaker once, and every iteration sleeps —
the last one included. -/
theorem doLoop_allFail (retrier : Nat → Int) (oracle : Nat → Admission) (req : Request) :
    ∀ (fuel i : Nat) (hr : Response) (calls : List Request) (b : Nat) (sleeps : List Int),
    (∀ j, i ≤ j → j < i + fuel → admFails (oracle j) = true) →
    doLoop retrier oracle req i fuel hr calls b sleeps =
      .normal ⟨ List.foldl failUpdate hr ((List.range' i fuel).map oracle)
              , none
              , calls ++
                  (((List.range' i fuel).map oracle).filter Admission.isAdmitted).map
                    (fun _ => req)
              , b + fuel
              , sleeps ++ (List.range' i fuel).map (fun j => retrier j) ⟩ := by
  intro fuel
  induction fuel with
  | zero => intro i hr calls b sleeps _; simp [doLoop]
  | succ n ih =>
    intro i hr calls b sleeps h
    have hi : admFails (oracle i) = true := h i (Nat.le_refl i) (by omega)
    obtain ⟨e, he⟩ := hystrixDo_fail_of_admFails (oracle i) hr hi
    rw [doLoop, he]
    show doLoop retrier oracle req (i + 1) n (failUpdate hr (oracle i))
        (if (oracle i).isAdmitted then calls ++ [req] else calls) (b + 1)
        (sleeps ++ [retrier i]) = _
    rw [ih (i + 1) (failUpdate hr (oracle i)) _ _ _
      (fun j h1 h2 => h j (by omega) (by omega))]
    rw [List.range'_succ]
    cases ha : (oracle i).isAdmitted <;>
      simp [ha, List.filter_cons, List.append_assoc, Nat.add_assoc, Nat.add_comm 1 n]

/-- C1: with retry count `N ≥ 0` set through `SetRetryCount` and a unit of
work that fails on every attempt (the breaker admits each time and the
wrapped HTTP call's outcome makes the closure return a non-nil error), one
`do` call invokes the wrapped HTTP call exactly `N + 1` times. -/
theorem C1_retry_count_attempts (N : Nat) (oracle : Nat → Admission) (req : Request)
    (h : ∀ j, ∃ t, oracle j = .admitted t ∧ unitFails t = true) :
    ((doCall (SetRetryCount (NewHystrixHTTPClient 10) (N : Int)) oracle req).httpCallsList).length
      = N + 1 := by
  have hfail : ∀ j, admFails (oracle j) = true := by
    intro j
    obtain ⟨t, hj, ht⟩ := h j
    rw [hj]; simpa [admFails] using ht
  have hfuel : (((N : Int)) + 1).toNat = N + 1 := by omega
  rw [doCall]
  simp only [SetRetryCount, NewHystrixHTTPClient]
  rw [hfuel, doLoop_allFail _ _ _ (N + 1) 0 _ _ _ _ (fun j _ _ => hfail j)]
  have hall :
      ((List.range' 0 (N + 1)).map oracle).filter Admission.isAdmitted
        = (List.range' 0 (N + 1)).map oracle := by
    apply List.filter_eq_self.mpr
    intro a ha
    obtain ⟨j, _, rfl⟩ := List.mem_map.mp ha
    obtain ⟨t, hj, _⟩ := h j
    rw [hj]; rfl
  simp [DoResult.httpCallsList, hall]

/-- Closed witness for `C1_retry_count_attempts`: retry count 2, transport
failing on every attempt — exactly 3 HTTP calls. -/
theorem C1_retry_count_attempts_witness :
    (∀ j, ∃ t, failingOracle j = .admitted t ∧ unitFails t = true) ∧
    ((doCall (SetRetryCount (NewHystrixHTTPClient 10) ((2 : Nat) : Int))
        failingOracle req0).httpCallsList).length = 2 + 1 :=
  ⟨fun _ => ⟨.transportErr, rfl, rfl⟩,
   C1_retry_count_attempts 2 failingOracle req0 (fun _ => ⟨.transportErr, rfl, rfl⟩)⟩

/-- C2: when every attempt fails (admitted-and-failing or rejected, in any
mix), `do` exhausts the loop and returns the accumulated `Response` with a
nil error — no synthesized retry-exhaustion error — even when that response
is a 5xx or still empty. -/
theorem C2_exhaustion_nil_error (hhc : HystrixHTTPClient) (oracle : Nat → Admission)
    (req : Request) (h : ∀ j, admFails (oracle j) = true) :
    (doCall hhc oracle req).errorOf = some none := by
  rw [doCall, doLoop_allFail _ _ _ _ 0 _ _ _ _ (fun j _ _ => h j)]
  rfl

/-- Closed witness for `C2_exhaustion_nil_error`: every attempt returns 503
(a failure), and the call still completes with a nil error. -/
theorem C2_exhaustion_nil_error_witness :
    (∀ j, admFails (oracle5xx j) = true) ∧
    (doCall (NewHystrixHTTPClient 10) oracle5xx req0).errorOf = some none :=
  ⟨fun _ => rfl,
   C2_exhaustion_nil_error (NewHystrixHTTPClient 10) oracle5xx req0 (fun _ => rfl)⟩

/-- An environment where the breaker rejects every attempt with the
circuit-open error. -/
def rejectedOracle : Nat → Admission := fun _ => .rejected .circuitOpen

/-- A constant backoff strategy: `NextInterval` returns `d` for every attempt. -/
def constRetrier (d : Int) : Nat → Int := fun _ => d

/-- The client of the concrete retry scenario: retry count 2, constant
backoff of 100 (time units). -/
def client2_100 : HystrixHTTPClient :=
  SetRetrier (SetRetryCount (NewHystrixHTTPClient 10) 2) (constRetrier 100)

/-- C3 counterexample: with the breaker rejecting admission (circuit open)
and the default configuration, `Get` returns a nil error — not the
rejection error. The claim that the rejection error "is returned directly
to the caller as the error result of the call" is false at this input. -/
theorem C3_counterexample_rejection_error_not_returned :
    (Get (NewHystrixHTTPClient 10) (.ok req0) rejectedOracle).errorOf = some none ∧
    ¬ (Get (NewHystrixHTTPClient 10) (.ok req0) rejectedOracle).errorOf
        = some (some GoError.circuitOpen) := by
  constructor <;> decide

/-- C3 amended: the breaker's rejection error is handed back unchanged by
the fallback into the retry loop (`hystrix.Do` returns it, making the
attempt a failure), and the underlying HTTP call is never made for a
rejected attempt; but the verb call itself returns the accumulated
`Response` with a nil error — the rejection error never reaches the
caller. -/
theorem C3_amended_rejection_swallowed (hhc : HystrixHTTPClient)
    (oracle : Nat → Admission) (req : Request) (hr : Response) (e : GoError)
    (h : ∀ j, ∃ e', oracle j = .rejected e') :
    hystrixDo hr (.rejected e) = .fail e hr ∧
    (doCall hhc oracle req).errorOf = some none ∧
    (doCall hhc oracle req).httpCallsList = [] := by
  have hfail : ∀ j, admFails (oracle j) = true := by
    intro j; obtain ⟨e', hj⟩ := h j; rw [hj]; rfl
  refine ⟨rfl, ?_, ?_⟩
  · rw [doCall, doLoop_allFail _ _ _ _ 0 _ _ _ _ (fun j _ _ => hfail j)]; rfl
  · rw [doCall, doLoop_allFail _ _ _ _ 0 _ _ _ _ (fun j _ _ => hfail j)]
    have hnone :
        ((List.range' 0 (hhc.retryCount + 1).toNat).map oracle).filter
            Admission.isAdmitted = [] := by
      apply List.filter_eq_nil_iff.mpr
      intro a ha
      obtain ⟨j, _, rfl⟩ := List.mem_map.mp ha
      obtain ⟨e', hj⟩ := h j
      rw [hj]; simp [Admission.isAdmitted]
    simp [DoResult.httpCallsList, hnone]

/-- Closed witness for `C3_amended_rejection_swallowed` at a concrete
always-rejecting environment. -/
theorem C3_amended_rejection_swallowed_witness :
    (∀ j, ∃ e', rejectedOracle j = .rejected e') ∧
    (hystrixDo Response.empty (.rejected .circuitOpen)
        = .fail .circuitOpen Response.empty ∧
      (doCall (NewHystrixHTTPClient 10) rejectedOracle req0).errorOf = some none ∧
      (doCall (NewHystrixHTTPClient 10) rejectedOracle req0).httpCallsList = []) :=
  ⟨fun _ => ⟨.circuitOpen, rfl⟩,
   C3_amended_rejection_swallowed (NewHystrixHTTPClient 10) rejectedOracle req0
     Response.empty .circuitOpen (fun _ => ⟨.circuitOpen, rfl⟩)⟩

/-- C4 counterexample: with retry count 2, a constant backoff of 100 and an
always-failing transport, `do` makes 3 underlying calls but sleeps three
times — `[100, 100, 100]`, not twice: the sleep also follows the final
failed attempt, because `time.Sleep` runs before the loop condition is
re-checked. -/
theorem C4_counterexample_sleeps_after_final_attempt :
    (doCall client2_100 failingOracle req0).sleepsOf = [100, 100, 100] ∧
    ((doCall client2_100 failingOracle req0).httpCallsList).length = 3 ∧
    ¬ ((doCall client2_100 failingOracle req0).sleepsOf).length = 2 := by
  refine ⟨by decide, by decide, by decide⟩

/-- C4 amended: retry count 2, constant backoff 100, always-failing
transport — `do` makes exactly 3 underlying calls and sleeps exactly three
times, once after every failed attempt including the final one, then
returns the accumulated (here still empty) response with a nil error. -/
theorem C4_amended_three_calls_three_sleeps :
    doCall client2_100 failingOracle req0 =
      .normal { response := Response.empty
              , error := none
              , httpCalls := [{ req0 with Close := true }, { req0 with Close := true },
                              { req0 with Close := true }]
              , breakerCalls := 3
              , sleeps := [100, 100, 100] } := by
  decide

/-- C5: whenever request construction fails, every verb returns the empty
`Response{}` and a non-nil wrapped error at once: the retry loop is never
entered (no sleeps, no breaker invocation) and no HTTP call is made. -/
theorem C5_request_construction_fatal (hhc : HystrixHTTPClient)
    (oracle : Nat → Admission) (e : GoError) :
    Get hhc (.err e) oracle =
      .normal ⟨Response.empty, some (.wrapped "GET - request creation failed" e),
        [], 0, []⟩ ∧
    Post hhc (.err e) oracle =
      .normal ⟨Response.empty, some (.wrapped "POST - request creation failed" e),
        [], 0, []⟩ ∧
    Put hhc (.err e) oracle =
      .normal ⟨Response.empty, some (.wrapped "PUT - request creation failed" e),
        [], 0, []⟩ ∧
    Patch hhc (.err e) oracle =
      .normal ⟨Response.empty, some (.wrapped "PATCH - request creation failed" e),
        [], 0, []⟩ ∧
    Delete hhc (.err e) oracle =
      .normal ⟨Response.empty, some (.wrapped "DELETE - request creation failed" e),
        [], 0, []⟩ :=
  ⟨rfl, rfl, rfl, rfl, rfl⟩

/-- C6: an admitted attempt whose transport succeeds with status `≥ 500` is
classified as a failure: the unit of work returns the non-nil "Server is
down" error — so the breaker records a failure — after still recording the
status and body into the accumulator; and the retry loop sees exactly the
same failure classification as for a transport error. -/
theorem C6_5xx_classified_as_failure (hr : Response) (s : Int) (bytes : List Nat)
    (h : 500 ≤ s) :
    unitOfWork hr (.resp s (some (.readOk bytes)))
      = .fail (.serverDown s) { statusCode := s, body := bytes } ∧
    (hystrixDo hr (.admitted (.resp s (some (.readOk bytes))))).isFail
      = (hystrixDo hr (.admitted .transportErr)).isFail := by
  refine ⟨?_, ?_⟩
  · simp [unitOfWork, if_pos h]
  · simp [hystrixDo, unitOfWork, if_pos h, UnitResult.isFail]

/-- When attempts `i, …, i+k-1` fail and attempt `i+k` is admitted with a
sub-500 status and a readable body, the loop stops right after attempt
`i+k`: `k+1` breaker invocations, one sleep per failed attempt and none
after the success, a nil error, and the success's status and body as the
response. -/
theorem doLoop_successAt (retrier : Nat → Int) (oracle : Nat → Admission)
    (req : Request) (s : Int) (bytes : List Nat) (hs : s < 500) :
    ∀ (k i fuel : Nat) (hr : Response) (calls : List Request) (b : Nat)
      (sleeps : List Int),
    k < fuel →
    (∀ j, i ≤ j → j < i + k → admFails (oracle j) = true) →
    oracle (i + k) = .admitted (.resp s (some (.readOk bytes))) →
    ∃ calls',
      doLoop retrier oracle req i fuel hr calls b sleeps =
        .normal ⟨ { statusCode := s, body := bytes }, none, calls', b + k + 1
                , sleeps ++ (List.range' i k).map (fun j => retrier j) ⟩ := by
  intro k
  induction k with
  | zero =>
    intro i fuel hr calls b sleeps hk _ hsucc
    obtain ⟨n, rfl⟩ : ∃ n, fuel = n + 1 := ⟨fuel - 1, by omega⟩
    have hok : hystrixDo hr (oracle i) = .ok { statusCode := s, body := bytes } := by
      rw [show oracle i = .admitted (.resp s (some (.readOk bytes))) from by
        simpa using hsucc]
      simp [hystrixDo, unitOfWork, if_neg (by omega : ¬ (500 ≤ s))]
    refine ⟨if (oracle i).isAdmitted then calls ++ [req] else calls, ?_⟩
    rw [doLoop, hok]
    simp
  | succ k ih =>
    intro i fuel hr calls b sleeps hk hfail hsucc
    obtain ⟨n, rfl⟩ : ∃ n, fuel = n + 1 := ⟨fuel - 1, by omega⟩
    have hi : admFails (oracle i) = true := hfail i (Nat.le_refl i) (by omega)
    obtain ⟨e, he⟩ := hystrixDo_fail_of_admFails (oracle i) hr hi
    obtain ⟨calls', hrec⟩ := ih (i + 1) n (failUpdate hr (oracle i))
      (if (oracle i).isAdmitted then calls ++ [req] else calls) (b + 1)
      (sleeps ++ [retrier i]) (by omega)
      (fun j h1 h2 => hfail j (by omega) (by omega))
      (by rw [show i + 1 + k = i + (k + 1) from by omega]; exact hsucc)
    refine ⟨calls', ?_⟩
    rw [doLoop, he]
    show doLoop retrier oracle req (i + 1) n (failUpdate hr (oracle i))
        (if (oracle i).isAdmitted then calls ++ [req] else calls) (b + 1)
        (sleeps ++ [retrier i]) = _
    rw [hrec, List.range'_succ]
    simp [List.append_assoc]
    omega

/-- C7: when some attempt `k ≤ retryCount` succeeds (breaker admits, no
transport error, status `< 500`) after `k` failing attempts, `do` returns
immediately after attempt `k`: exactly `k+1` breaker invocations, exactly
`k` sleeps (none after the success), a nil error, and the successful
attempt's status and body as the returned response. -/
theorem C7_success_returns_immediately (hhc : HystrixHTTPClient) (N : Nat)
    (oracle : Nat → Admission) (req : Request) (k : Nat) (s : Int)
    (bytes : List Nat)
    (hN : hhc.retryCount = (N : Int)) (hk : k ≤ N) (hs : s < 500)
    (hfail : ∀ j, j < k → admFails (oracle j) = true)
    (hsucc : oracle k = .admitted (.resp s (some (.readOk bytes)))) :
    (doCall hhc oracle req).breakerCallsOf = k + 1 ∧
    ((doCall hhc oracle req).sleepsOf).length = k ∧
    (doCall hhc oracle req).errorOf = some none ∧
    (doCall hhc oracle req).responseOf = some { statusCode := s, body := bytes } := by
  have hfuel : (hhc.retryCount + 1).toNat = N + 1 := by omega
  obtain ⟨calls', hrec⟩ := doLoop_successAt hhc.retrier oracle
    { req with Close := true } s bytes hs k 0 (N + 1) Response.empty [] 0 []
    (by omega) (fun j _ h2 => hfail j (by omega)) (by simpa using hsucc)
  rw [doCall, hfuel, hrec]
  simp [DoResult.breakerCallsOf, DoResult.sleepsOf, DoResult.errorOf,
    DoResult.responseOf]

/-- Closed witness for `C7_success_returns_immediately`: one transport
failure, then a 200 — two breaker calls, one sleep, nil error, response
`⟨200, [3]⟩`. -/
theorem C7_success_returns_immediately_witness :
    ((SetRetryCount (NewHystrixHTTPClient 10) ((3 : Nat) : Int)).retryCount
        = ((3 : Nat) : Int) ∧
      1 ≤ 3 ∧ (200 : Int) < 500 ∧
      (∀ j, j < 1 →
        admFails ((fun j => if j = 0 then Admission.admitted .transportErr
          else Admission.admitted (.resp 200 (some (.readOk [3])))) j) = true) ∧
      (fun j => if j = 0 then Admission.admitted .transportErr
          else Admission.admitted (.resp 200 (some (.readOk [3])))) 1
        = .admitted (.resp 200 (some (.readOk [3])))) ∧
    ((doCall (SetRetryCount (NewHystrixHTTPClient 10) ((3 : Nat) : Int))
        (fun j => if j = 0 then Admission.admitted .transportErr
          else Admission.admitted (.resp 200 (some (.readOk [3])))) req0).breakerCallsOf
        = 1 + 1 ∧
      ((doCall (SetRetryCount (NewHystrixHTTPClient 10) ((3 : Nat) : Int))
        (fun j => if j = 0 then Admission.admitted .transportErr
          else Admission.admitted (.resp 200 (some (.readOk [3])))) req0).sleepsOf).length
        = 1 ∧
      (doCall (SetRetryCount (NewHystrixHTTPClient 10) ((3 : Nat) : Int))
        (fun j => if j = 0 then Admission.admitted .transportErr
          else Admission.admitted (.resp 200 (some (.readOk [3])))) req0).errorOf
        = some none ∧
      (doCall (SetRetryCount (NewHystrixHTTPClient 10) ((3 : Nat) : Int))
        (fun j => if j = 0 then Admission.admitted .transportErr
          else Admission.admitted (.resp 200 (some (.readOk [3])))) req0).responseOf
        = some { statusCode := 200, body := [3] }) :=
  ⟨⟨rfl, by decide, by decide,
      fun j hj => by interval_cases j <;> rfl, rfl⟩,
   C7_success_returns_immediately (SetRetryCount (NewHystrixHTTPClient 10) ((3 : Nat) : Int))
     3 (fun j => if j = 0 then Admission.admitted .transportErr
          else Admission.admitted (.resp 200 (some (.readOk [3])))) req0 1 200 [3]
     rfl (by decide) (by decide)
     (fun j hj => by interval_cases j <;> rfl) rfl⟩

/-- Every request the loop hands to `hhc.client.Do` is either one already in
the accumulator or the single request object the loop was given. -/
theorem doLoop_calls_subset (retrier : Nat → Int) (oracle : Nat → Admission)
    (req : Request) :
    ∀ (fuel i : Nat) (hr : Response) (calls : List Request) (b : Nat)
      (sleeps : List Int) (r : Request),
    r ∈ (doLoop retrier oracle req i fuel hr calls b sleeps).httpCallsList →
    r ∈ calls ∨ r = req := by
  intro fuel
  induction fuel with
  | zero =>
    intro i hr calls b sleeps r hmem
    rw [doLoop] at hmem
    exact Or.inl hmem
  | succ n ih =>
    intro i hr calls b sleeps r hmem
    rw [doLoop] at hmem
    have hcase : ∀ c : Bool,
        r ∈ (if c = true then calls ++ [req] else calls) → r ∈ calls ∨ r = req := by
      intro c hc
      cases c with
      | false => exact Or.inl hc
      | true =>
        rcases List.mem_append.mp hc with h | h
        · exact Or.inl h
        · exact Or.inr (by simpa using h)
    cases hDo : hystrixDo hr (oracle i) with
    | panicNilBody hr' =>
      rw [hDo] at hmem
      exact hcase _ hmem
    | ok hr' =>
      rw [hDo] at hmem
      exact hcase _ hmem
    | fail e hr' =>
      rw [hDo] at hmem
      rcases ih (i + 1) hr' _ (b + 1) (sleeps ++ [retrier i]) r hmem with h | h
      · exact hcase _ h
      · exact Or.inr h

/-- C8: every request that reaches `hhc.client.Do` during a `do` call is the
caller's request with `Close = true`: the mark is set once, before any
attempt, and all attempts observe the same marked request, so connections
are not kept alive across attempts. -/
theorem C8_request_close_marked (hhc : HystrixHTTPClient)
    (oracle : Nat → Admission) (req r : Request)
    (h : r ∈ (doCall hhc oracle req).httpCallsList) :
    r = { req with Close := true } ∧ r.Close = true := by
  rw [doCall] at h
  rcases doLoop_calls_subset hhc.retrier oracle { req with Close := true } _ 0
      Response.empty [] 0 [] r h with hin | rfl
  · exact absurd hin (List.not_mem_nil r)
  · exact ⟨rfl, rfl⟩

/-- Closed witness for `C8_request_close_marked`: a single successful
attempt; its HTTP call carries `req0` with `Close = true`. -/
theorem C8_request_close_marked_witness :
    ({ req0 with Close := true } : Request) ∈
        (doCall (NewHystrixHTTPClient 10)
          (fun _ => .admitted (.resp 200 (some (.readOk [])))) req0).httpCallsList ∧
    (({ req0 with Close := true } : Request) = { req0 with Close := true } ∧
      ({ req0 with Close := true } : Request).Close = true) :=
  ⟨by decide,
   C8_request_close_marked (NewHystrixHTTPClient 10)
     (fun _ => .admitted (.resp 200 (some (.readOk [])))) req0
     { req0 with Close := true } (by decide)⟩

/-- Closed witness for `C6_5xx_classified_as_failure` at status 500. -/
theorem C6_5xx_classified_as_failure_witness :
    (500 : Int) ≤ 500 ∧
    (unitOfWork Response.empty (.resp 500 (some (.readOk [7])))
        = .fail (.serverDown 500) { statusCode := 500, body := [7] } ∧
      (hystrixDo Response.empty (.admitted (.resp 500 (some (.readOk [7]))))).isFail
        = (hystrixDo Response.empty (.admitted .transportErr)).isFail) :=
  ⟨by decide, C6_5xx_classified_as_failure Response.empty 500 [7] (by decide)⟩

/-- C9: the body read is guarded by `if response.Body != nil`, but the
following `response.Body.Close()` is not: on a transport response with a nil
body the unit of work panics (it never returns a result), while any
response with a non-nil body never panics — the `Close` call is only safe
when every successful transport response carries a non-nil body. The panic
escapes `do`: the whole call aborts instead of returning. -/
theorem C9_nil_body_close_panics (hr : Response) (s : Int) (ro : ReadOutcome)
    (req : Request) :
    unitOfWork hr (.resp s none) = .panicNilBody hr ∧
    (unitOfWork hr (.resp s (some ro))).isPanic = false ∧
    (doCall (NewHystrixHTTPClient 10) (fun _ => .admitted (.resp s none))
        req).isPanicked = true := by
  refine ⟨rfl, ?_, ?_⟩
  · cases ro with
    | readErr got => rfl
    | readOk bytes =>
      rw [unitOfWork]
      split <;> rfl
  · rfl

/-- Folding `failUpdate` over admissions that all leave the accumulator
unchanged is the identity. -/
theorem foldl_failUpdate_const :
    ∀ (l : List Admission) (hr : Response),
    (∀ a ∈ l, ∀ h, failUpdate h a = h) → List.foldl failUpdate hr l = hr := by
  intro l
  induction l with
  | nil => intro hr _; rfl
  | cons a l ih =>
    intro hr h
    rw [List.foldl_cons, h a (List.mem_cons_self a l) hr]
    exact ih hr (fun a' ha' h' => h a' (List.mem_cons_of_mem a ha') h')

/-- C10: the accumulator `hr` is shared across all attempts of one `do` call
and never reset: if attempt `i0` receives a 5xx response whose status and
body are recorded (a failed attempt), and every other attempt fails at the
transport level without a response, the `Response` returned on exhaustion
still carries attempt `i0`'s status and body, with a nil error. -/
theorem C10_response_accumulates_across_attempts (hhc : HystrixHTTPClient)
    (N i0 : Nat) (oracle : Nat → Admission) (req : Request) (s : Int)
    (bytes : List Nat)
    (hN : hhc.retryCount = (N : Int)) (hi : i0 ≤ N) (hs : 500 ≤ s)
    (hAt : oracle i0 = .admitted (.resp s (some (.readOk bytes))))
    (hElse : ∀ j, j ≠ i0 → oracle j = .admitted .transportErr) :
    (doCall hhc oracle req).responseOf = some { statusCode := s, body := bytes } ∧
    (doCall hhc oracle req).errorOf = some none := by
  have hfail : ∀ j, admFails (oracle j) = true := by
    intro j
    by_cases hj : j = i0
    · subst hj
      rw [hAt]
      simp [admFails, unitFails, hs]
    · rw [hElse j hj]; rfl
  have hfuel : (hhc.retryCount + 1).toNat = N + 1 := by omega
  rw [doCall, hfuel, doLoop_allFail _ _ _ _ 0 _ _ _ _ (fun j _ _ => hfail j)]
  have hsplit : List.range' 0 (N + 1) =
      List.range' 0 i0 ++ (i0 :: List.range' (i0 + 1) (N - i0)) := by
    have h1 : List.range' 0 i0 ++ List.range' (0 + 1 * i0) (N + 1 - i0)
        = List.range' 0 ((N + 1 - i0) + i0) := List.range'_append 0 i0 (N + 1 - i0) 1
    have h2 : (N + 1 - i0) + i0 = N + 1 := by omega
    have h3 : N + 1 - i0 = (N - i0) + 1 := by omega
    rw [h2] at h1
    rw [← h1, h3, List.range'_succ]
    simp
  have hfold :
      List.foldl failUpdate Response.empty ((List.range' 0 (N + 1)).map oracle)
        = { statusCode := s, body := bytes } := by
    rw [hsplit, List.map_append, List.foldl_append]
    rw [foldl_failUpdate_const ((List.range' 0 i0).map oracle) Response.empty ?hlow]
    case hlow =>
      intro a ha h'
      obtain ⟨j, hj, rfl⟩ := List.mem_map.mp ha
      have hjne : j ≠ i0 := by
        obtain ⟨m, hm, rfl⟩ := List.mem_range'.mp hj
        omega
      rw [hElse j hjne]; rfl
    rw [List.map_cons, List.foldl_cons, hAt]
    rw [show failUpdate Response.empty
        (.admitted (.resp s (some (.readOk bytes))))
        = { statusCode := s, body := bytes } from rfl]
    apply foldl_failUpdate_const
    intro a ha h'
    obtain ⟨j, hj, rfl⟩ := List.mem_map.mp ha
    have hjne : j ≠ i0 := by
      obtain ⟨m, hm, rfl⟩ := List.mem_range'.mp hj
      omega
    rw [hElse j hjne]; rfl
  rw [hfold]
  exact ⟨rfl, rfl⟩

/-- Closed witness for `C10_response_accumulates_across_attempts`:
retry count 2, a 502 with body `[9]` on attempt 0, transport errors on the
two later attempts — the returned response is still `⟨502, [9]⟩`, nil
error. -/
theorem C10_response_accumulates_across_attempts_witness :
    ((SetRetryCount (NewHystrixHTTPClient 10) ((2 : Nat) : Int)).retryCount
        = ((2 : Nat) : Int) ∧
      0 ≤ 2 ∧ (500 : Int) ≤ 502 ∧
      (fun j => if j = 0 then Admission.admitted (.resp 502 (some (.readOk [9])))
          else Admission.admitted .transportErr) 0
        = .admitted (.resp 502 (some (.readOk [9]))) ∧
      (∀ j, j ≠ 0 →
        (fun j => if j = 0 then Admission.admitted (.resp 502 (some (.readOk [9])))
          else Admission.admitted .transportErr) j = .admitted .transportErr)) ∧
    ((doCall (SetRetryCount (NewHystrixHTTPClient 10) ((2 : Nat) : Int))
        (fun j => if j = 0 then Admission.admitted (.resp 502 (some (.readOk [9])))
          else Admission.admitted .transportErr) req0).responseOf
        = some { statusCode := 502, body := [9] } ∧
      (doCall (SetRetryCount (NewHystrixHTTPClient 10) ((2 : Nat) : Int))
        (fun j => if j = 0 then Admission.admitted (.resp 502 (some (.readOk [9])))
          else Admission.admitted .transportErr) req0).errorOf = some none) :=
  ⟨⟨rfl, by decide, by decide, rfl, fun j hj => by simp [hj]⟩,
   C10_response_accumulates_across_attempts
     (SetRetryCount (NewHystrixHTTPClient 10) ((2 : Nat) : Int)) 2 0
     (fun j => if j = 0 then Admission.admitted (.resp 502 (some (.readOk [9])))
       else Admission.admitted .transportErr) req0 502 [9]
     rfl (by decide) (by decide) rfl (fun j hj => by simp [hj])⟩

end Heimdall
